import Mathlib

/-!
Verification of the z_audio_kit audio framework core: block pool and
reference counting (src/core.c), splitter fan-out (src/nodes/node_splitter.c),
sequential channel strip and mixer (src/channel_strip.c), the spectrum
analyzer node (src/nodes/node_spectrum_analyzer_v2.c) and the sine
generators (src/nodes/node_sine.c and the v2 sequential sine node).
C structures are embedded as Lean structures, machine integers as Int/Nat,
and the kernel fixed-size slab allocator as an explicit free-list state.
-/

/-- Number of int16 samples per block (Kconfig option
CONFIG_AUDIO_BLOCK_SAMPLES; the project documentation's default is 128). -/
def CONFIG_AUDIO_BLOCK_SAMPLES : Nat := 128

/-- Zephyr errno value ENOMEM. -/
def ENOMEM : Int := 12

/-- Zephyr errno value EINVAL. -/
def EINVAL : Int := 22

/-- Embedding of struct audio_block (include/audio_fw.h): PCM sample buffer,
valid-sample count and atomic reference counter.  Samples are int16 values
carried as Int. -/
structure AudioBlock where
  data : List Int
  data_len : Nat
  ref_count : Int
deriving Repr, DecidableEq

/-- The two memory slabs of src/core.c (audio_block_slab for descriptors,
audio_data_slab for PCM buffers), each modelled as the free list of its
free slot ids. -/
structure Slabs where
  blockSlab : List Nat
  dataSlab : List Nat
deriving Repr, DecidableEq

/-- k_mem_slab_alloc with K_NO_WAIT: take the head slot of the free list,
fail without blocking when the list is empty. -/
def k_mem_slab_alloc : List Nat → Option Nat × List Nat
  | [] => (none, [])
  | x :: xs => (some x, xs)

/-- k_mem_slab_free: push the slot back onto the front of the free list. -/
def k_mem_slab_free (slot : Nat) (s : List Nat) : List Nat :=
  slot :: s

/-- audio_block_alloc (src/core.c): obtain a descriptor from the block slab,
then a buffer from the data slab; on buffer failure return the descriptor
to its slab before reporting failure.  On success the buffer is zeroed,
data_len is set to CONFIG_AUDIO_BLOCK_SAMPLES and the refcount to 1. -/
def audio_block_alloc (s : Slabs) : Option AudioBlock × Slabs :=
  match k_mem_slab_alloc s.blockSlab with
  | (none, _) => (none, s)
  | (some d, bs) =>
    match k_mem_slab_alloc s.dataSlab with
    | (none, _) => (none, { s with blockSlab := k_mem_slab_free d bs })
    | (some _, ds) =>
      (some { data := List.replicate CONFIG_AUDIO_BLOCK_SAMPLES 0,
              data_len := CONFIG_AUDIO_BLOCK_SAMPLES,
              ref_count := 1 },
       { blockSlab := bs, dataSlab := ds })

/-- Resource-free events emitted by audio_block_release, in program order. -/
inductive FreeEv where
  | buffer
  | descriptor
deriving Repr, DecidableEq

/-- audio_block_release (src/core.c): atomic_dec returns the previous value;
when the previous value was 1 (new count 0) the PCM buffer is returned to
its slab first and then the descriptor.  The result carries the block with
its decremented refcount and the list of free events. -/
def audio_block_release (b : AudioBlock) : AudioBlock × List FreeEv :=
  let old_count := b.ref_count
  let new_count := old_count - 1
  if new_count = 0 then
    ({ b with ref_count := new_count }, [FreeEv.buffer, FreeEv.descriptor])
  else
    ({ b with ref_count := new_count }, [])

/-- Iterate audio_block_release n times on the same block, concatenating the
free events of all calls. -/
def audio_block_release_iter : Nat → AudioBlock → AudioBlock × List FreeEv
  | 0, b => (b, [])
  | n + 1, b =>
    let r := audio_block_release b
    let rest := audio_block_release_iter n r.1
    (rest.1, r.2 ++ rest.2)

/-- Outcome of audio_block_get_writable: return code, the caller's handle
after the call, the state of the originally passed block, and the slabs. -/
structure CowOut where
  ret : Int
  handle : AudioBlock
  original : AudioBlock
  slabs : Slabs
deriving Repr, DecidableEq

/-- audio_block_get_writable (src/core.c): when the refcount exceeds 1,
allocate a fresh block, copy the full PCM buffer and data_len, release the
original through the caller's handle and substitute the new block; when the
refcount is 1 return 0 immediately with nothing changed.  Allocation
failure yields -ENOMEM and leaves handle, block and slabs unchanged. -/
def audio_block_get_writable (b : AudioBlock) (s : Slabs) : CowOut :=
  if 1 < b.ref_count then
    match audio_block_alloc s with
    | (none, s1) => { ret := -ENOMEM, handle := b, original := b, slabs := s1 }
    | (some nb, s1) =>
      let nb1 := { nb with data := b.data, data_len := b.data_len }
      let orig := (audio_block_release b).1
      { ret := 0, handle := nb1, original := orig, slabs := s1 }
  else
    { ret := 0, handle := b, original := b, slabs := s }

/-- Helper: an iterated release of a block whose refcount is already at or
below zero never frees anything (new_count is old - 1, never zero again). -/
theorem release_iter_nonpos (n : Nat) (b : AudioBlock) (h : b.ref_count ≤ 0) :
    (audio_block_release_iter n b).2 = [] := by
  induction n generalizing b with
  | zero => rfl
  | succ n ih =>
    simp only [audio_block_release_iter, audio_block_release]
    have h1 : ¬ (b.ref_count - 1 = 0) := by omega
    simp only [h1, if_false]
    exact ih _ (by simp; omega)

/-- Claim C8: audio_block_alloc takes the head descriptor and head buffer
slot, zeroes the buffer, sets data_len to CONFIG_AUDIO_BLOCK_SAMPLES and
the refcount to 1; it returns none exactly when either slab free list is
empty, and every failure (including the descriptor-obtained path) leaves
both slabs' contents unchanged. -/
theorem audio_block_alloc_correct (s : Slabs) :
    audio_block_alloc s =
      (if s.blockSlab = [] ∨ s.dataSlab = [] then (none, s)
       else (some { data := List.replicate CONFIG_AUDIO_BLOCK_SAMPLES 0,
                    data_len := CONFIG_AUDIO_BLOCK_SAMPLES,
                    ref_count := 1 },
             { blockSlab := s.blockSlab.tail, dataSlab := s.dataSlab.tail })) ∧
    ((audio_block_alloc s).1 = none ↔ s.blockSlab = [] ∨ s.dataSlab = []) := by
  obtain ⟨bs, ds⟩ := s
  cases bs with
  | nil => simp [audio_block_alloc, k_mem_slab_alloc]
  | cons d bs =>
    cases ds with
    | nil => simp [audio_block_alloc, k_mem_slab_alloc, k_mem_slab_free]
    | cons x ds => simp [audio_block_alloc, k_mem_slab_alloc]

/-- Claim C2: audio_block_release decrements the refcount and emits the
buffer-free followed by the descriptor-free exactly when the previous
refcount was 1 (so a release from any refcount other than 1, in particular
greater than 1, frees nothing); and over any number of releases of one
block, the buffer free and the descriptor free each occur at most once. -/
theorem audio_block_release_correct (b : AudioBlock) (n : Nat) :
    ((audio_block_release b).2 =
       if b.ref_count = 1 then [FreeEv.buffer, FreeEv.descriptor] else []) ∧
    (audio_block_release b).1.ref_count = b.ref_count - 1 ∧
    ((audio_block_release_iter n b).2.count FreeEv.buffer ≤ 1 ∧
     (audio_block_release_iter n b).2.count FreeEv.descriptor ≤ 1) := by
  refine ⟨?_, ?_, ?_⟩
  · simp only [audio_block_release]
    rcases eq_or_ne b.ref_count 1 with h | h
    · simp [h]
    · have h1 : ¬ (b.ref_count - 1 = 0) := by omega
      simp [h1, h]
  · simp only [audio_block_release]
    split <;> rfl
  · induction n generalizing b with
    | zero => simp [audio_block_release_iter]
    | succ n ih =>
      simp only [audio_block_release_iter, audio_block_release]
      rcases eq_or_ne (b.ref_count - 1) 0 with h | h
      · have hz : (audio_block_release_iter n
            { b with ref_count := b.ref_count - 1 }).2 = [] := by
          apply release_iter_nonpos
          simp; omega
        rw [h] at hz
        simp only [h, if_pos rfl]
        simp [hz, List.count_cons, List.count_nil]
      · simp only [h, if_neg h]
        have := ih { b with ref_count := b.ref_count - 1 }
        simpa using this

/-- Claim C1: audio_block_get_writable on a handle with refcount 1 returns 0
at once with handle, block and slabs untouched; with refcount above 1 it
fails with -ENOMEM exactly when a slab is exhausted, leaving everything
unchanged, and otherwise consumes one descriptor and one buffer slot and
hands back a fresh handle with refcount 1 whose buffer equals the original
byte for byte and whose data_len matches, while the original block is left
at its previous refcount minus one. -/
theorem audio_block_get_writable_correct (b : AudioBlock) (s : Slabs)
    (hrc : 1 ≤ b.ref_count) :
    (b.ref_count = 1 →
       audio_block_get_writable b s =
         { ret := 0, handle := b, original := b, slabs := s }) ∧
    (1 < b.ref_count →
       ((s.blockSlab = [] ∨ s.dataSlab = []) →
          audio_block_get_writable b s =
            { ret := -ENOMEM, handle := b, original := b, slabs := s }) ∧
       (¬ (s.blockSlab = [] ∨ s.dataSlab = []) →
          audio_block_get_writable b s =
            { ret := 0,
              handle := { data := b.data, data_len := b.data_len,
                          ref_count := 1 },
              original := { b with ref_count := b.ref_count - 1 },
              slabs := { blockSlab := s.blockSlab.tail,
                         dataSlab := s.dataSlab.tail } })) := by
  have halloc := (audio_block_alloc_correct s).1
  constructor
  · intro h1
    have : ¬ (1 < b.ref_count) := by omega
    simp [audio_block_get_writable, this]
  · intro hgt
    constructor
    · intro hempty
      simp only [audio_block_get_writable, if_pos hgt]
      rw [halloc, if_pos hempty]
    · intro hfull
      simp only [audio_block_get_writable, if_pos hgt]
      rw [halloc, if_neg hfull]
      have hne : ¬ (b.ref_count - 1 = 0) := by omega
      simp [audio_block_release, hne]

/-- Witness for claim C1: a shared block (refcount 2) with one free slot in
each slab is copied into a fresh refcount-1 handle with equal buffer, the
original drops to refcount 1, and a refcount-1 block is untouched. -/
theorem audio_block_get_writable_witness :
    audio_block_get_writable
        { data := [7, -3], data_len := 2, ref_count := 2 }
        { blockSlab := [4], dataSlab := [9] } =
      { ret := 0,
        handle := { data := [7, -3], data_len := 2, ref_count := 1 },
        original := { data := [7, -3], data_len := 2, ref_count := 1 },
        slabs := { blockSlab := [], dataSlab := [] } } :=
  ((audio_block_get_writable_correct
      { data := [7, -3], data_len := 2, ref_count := 2 }
      { blockSlab := [4], dataSlab := [9] } (by decide)).2
    (by decide)).2 (by decide)

/-- A sequential node's step function (audio_fw_v2.h vtable process):
consumes a block and yields the block to hand to the next stage, or none
when the node drops it. -/
def SeqNodeF : Type := AudioBlock → Option AudioBlock

/-- Inner loop of channel_strip_process_block (src/channel_strip.c): visit
the node array in insertion order, threading each node's returned block
into the next node, returning none as soon as a node returns none. -/
def channel_strip_run : List SeqNodeF → AudioBlock → Option AudioBlock
  | [], b => some b
  | n :: ns, b =>
    match n b with
    | none => none
    | some b1 => channel_strip_run ns b1

/-- channel_strip_process_block (src/channel_strip.c): null input yields
null, otherwise the block is threaded through the strip's nodes. -/
def channel_strip_process_block (nodes : List SeqNodeF) :
    Option AudioBlock → Option AudioBlock
  | none => none
  | some b => channel_strip_run nodes b

/-- Process a whole input sequence through a strip, one call per input, as
the strip worker does. -/
def channel_strip_process_seq (nodes : List SeqNodeF)
    (inputs : List (Option AudioBlock)) : List (Option AudioBlock) :=
  inputs.map (channel_strip_process_block nodes)

/-- Helper: running a strip over concatenated node lists equals running the
first part and feeding its outcome to the second part. -/
theorem channel_strip_run_append (ns1 ns2 : List SeqNodeF) (b : AudioBlock) :
    channel_strip_run (ns1 ++ ns2) b =
      channel_strip_process_block ns2 (channel_strip_run ns1 b) := by
  induction ns1 generalizing b with
  | nil => rfl
  | cons n ns ih =>
    simp only [List.cons_append, channel_strip_run]
    cases n b with
    | none => rfl
    | some b1 => exact ih b1

/-- Claim C4: channel_strip_process_block invokes nodes in insertion order,
threading each returned block into the next node: a none input stays none,
an empty strip returns the input block itself, prepending a node means its
step runs first and its none output short-circuits the rest (the result of
any suffix of later nodes is never consulted), splitting the node list
anywhere factors the run into sequential composition, and two runs over
identical input sequences produce identical outputs. -/
theorem channel_strip_process_block_correct (nodes ns1 ns2 : List SeqNodeF)
    (n : SeqNodeF) (b : AudioBlock) (i : Option AudioBlock)
    (inputs1 inputs2 : List (Option AudioBlock)) (hin : inputs1 = inputs2) :
    channel_strip_process_block nodes none = none ∧
    channel_strip_process_block [] (some b) = some b ∧
    channel_strip_process_block (n :: nodes) (some b) =
      (n b).bind (fun b1 => channel_strip_process_block nodes (some b1)) ∧
    channel_strip_process_block (ns1 ++ ns2) i =
      channel_strip_process_block ns2 (channel_strip_process_block ns1 i) ∧
    channel_strip_process_seq nodes inputs1 =
      channel_strip_process_seq nodes inputs2 := by
  refine ⟨rfl, rfl, ?_, ?_, by rw [hin]⟩
  · simp only [channel_strip_process_block, channel_strip_run]
    cases n b with
    | none => rfl
    | some b1 => rfl
  · cases i with
    | none => rfl
    | some b0 => exact channel_strip_run_append ns1 ns2 b0

/-- Witness for claim C4: a concrete two-node strip where the first node
halves data_len and the second drops the block, so the strip output is
none; and the empty strip case on a concrete block. -/
theorem channel_strip_process_block_witness :
    channel_strip_process_block
        [fun b => some { b with data_len := b.data_len / 2 },
         fun _ => none] (some { data := [1], data_len := 4, ref_count := 1 })
      = none ∧
    channel_strip_process_block []
        (some { data := [1], data_len := 4, ref_count := 1 })
      = some { data := [1], data_len := 4, ref_count := 1 } := by
  have h := channel_strip_process_block_correct
    [fun _ => none] [] [] (fun b => some { b with data_len := b.data_len / 2 })
    { data := [1], data_len := 4, ref_count := 1 } none [] [] rfl
  exact ⟨by rw [h.2.2.1]; rfl, h.2.1⟩

/-- Events of one splitter step, in program order: the atomic refcount
addition and the per-queue put of the shared handle. -/
inductive SpEv where
  | addRef (n : Int)
  | put (queue : Nat)
deriving Repr, DecidableEq

/-- Test for a put event. -/
def SpEv.isPutEv : SpEv → Bool
  | SpEv.put _ => true
  | _ => false

/-- MAX_SPLIT_OUTPUTS of src/nodes/node_splitter.c (the spec's
SPLITTER_MAX_OUTS). -/
def MAX_SPLIT_OUTPUTS : Nat := 4

/-- node_splitter_add_output: append a target queue, failing when the
output table is full. -/
def node_splitter_add_output (outs : List Nat) (target : Nat) :
    Option (List Nat) :=
  if MAX_SPLIT_OUTPUTS ≤ outs.length then none else some (outs ++ [target])

/-- splitter_process (src/nodes/node_splitter.c) acting on one taken block:
with no outputs the block is released; otherwise, when more than one output
is configured, output_count - 1 is added to the refcount, and then the same
handle is put on every configured output queue.  The result is the block
after the step together with the ordered event trace. -/
def splitter_process (outs : List Nat) (b : AudioBlock) :
    AudioBlock × List SpEv :=
  if outs.length = 0 then
    ((audio_block_release b).1, [])
  else
    let b1 := if 1 < outs.length then
        { b with ref_count := b.ref_count + ((outs.length : Int) - 1) }
      else b
    let pre := if 1 < outs.length then
        [SpEv.addRef ((outs.length : Int) - 1)] else []
    (b1, pre ++ outs.map SpEv.put)

/-- Claim C3: a splitter step with N configured outputs, 1 ≤ N ≤
MAX_SPLIT_OUTPUTS, and a taken block at refcount 1 adds N - 1 to the
refcount before any put appears in the trace, performs exactly one put per
output queue (N puts in total, all of the same handle), and the refcount
any consumer can observe from the first put onwards is N. -/
theorem splitter_process_correct (outs : List Nat) (b : AudioBlock)
    (hlen : 1 ≤ outs.length) (hmax : outs.length ≤ MAX_SPLIT_OUTPUTS)
    (hrc : b.ref_count = 1) :
    (splitter_process outs b).1.ref_count = (outs.length : Int) ∧
    (splitter_process outs b).2 =
      (if 1 < outs.length then [SpEv.addRef ((outs.length : Int) - 1)]
       else []) ++ outs.map SpEv.put ∧
    ((splitter_process outs b).2.filter SpEv.isPutEv).length = outs.length ∧
    (splitter_process outs b).1.ref_count = b.ref_count +
      ((outs.length : Int) - 1) := by
  have hne : ¬ (outs.length = 0) := by omega
  have hkey : splitter_process outs b =
      ((if 1 < outs.length then
          { b with ref_count := b.ref_count + ((outs.length : Int) - 1) }
        else b),
       (if 1 < outs.length then [SpEv.addRef ((outs.length : Int) - 1)]
        else []) ++ outs.map SpEv.put) := by
    simp only [splitter_process, if_neg hne]
  have hfil : (outs.map SpEv.put).filter SpEv.isPutEv = outs.map SpEv.put := by
    apply List.filter_eq_self.mpr
    intro a ha
    obtain ⟨q, hq, rfl⟩ := List.mem_map.mp ha
    rfl
  refine ⟨?_, ?_, ?_, ?_⟩
  · rw [hkey]
    rcases Nat.lt_or_ge 1 outs.length with h1 | h1
    · simp only [if_pos h1, hrc]
      ring
    · have hl1 : outs.length = 1 := by omega
      have : ¬ (1 < outs.length) := by omega
      simp [this, hrc, hl1]
  · rw [hkey]
  · rw [hkey]
    rcases Nat.lt_or_ge 1 outs.length with h1 | h1
    · simp [if_pos h1, List.filter_append, hfil, SpEv.isPutEv]
    · have : ¬ (1 < outs.length) := by omega
      simp [this, List.filter_append, hfil]
  · rw [hkey]
    rcases Nat.lt_or_ge 1 outs.length with h1 | h1
    · simp [if_pos h1]
    · have hl1 : outs.length = 1 := by omega
      have : ¬ (1 < outs.length) := by omega
      simp [this, hl1]

/-- Witness for claim C3: a three-output splitter on a refcount-1 block
raises the refcount to 3 before emitting the three puts. -/
theorem splitter_process_witness :
    (splitter_process [10, 11, 12]
        { data := [], data_len := 0, ref_count := 1 }).1.ref_count = 3 ∧
    (splitter_process [10, 11, 12]
        { data := [], data_len := 0, ref_count := 1 }).2 =
      [SpEv.addRef 2, SpEv.put 10, SpEv.put 11, SpEv.put 12] := by
  have h := splitter_process_correct [10, 11, 12]
    { data := [], data_len := 0, ref_count := 1 }
    (by decide) (by decide) (by decide)
  exact ⟨h.1, by rw [h.2.1]; rfl⟩

/-- Saturation of the mixer sum loop (src/channel_strip.c): clip the 32-bit
sum to the signed 16-bit range, upper bound first as in the code. -/
def clamp16 (sum : Int) : Int :=
  let s1 := if 32767 < sum then 32767 else sum
  if s1 < -32768 then -32768 else s1

/-- Write zeros over the first n entries of a buffer (the mixer's
mix-buffer zero loop). -/
def zeroFirst (d : List Int) (n : Nat) : List Int :=
  (d.take n).map (fun _ => 0) ++ d.drop n

/-- Copy the first n entries of src over dst (the mixer's per-channel input
copy loop). -/
def copyFirst (dst src : List Int) (n : Nat) : List Int :=
  src.take n ++ dst.drop n

/-- Saturating-add the first n entries of a channel result into the mix
buffer, leaving the rest of the mix buffer unchanged. -/
def satSumFirst (mixd chd : List Int) (n : Nat) : List Int :=
  List.zipWith (fun a c => clamp16 (a + c)) (mixd.take n) (chd.take n) ++
    mixd.drop n

/-- Allocation environment for the mixer: the pool is abstracted as an
oracle giving the success of the k-th audio_block_alloc call made while
processing (pool exhaustion is environmental, not decided by the mixer). -/
structure MixerEnv where
  allocOk : Nat → Bool

/-- Observable mixer-side state: how many audio_block_alloc calls were made
and which blocks were passed to audio_block_release, in order. -/
structure MixerSt where
  allocCalls : Nat
  released : List AudioBlock
deriving Repr, DecidableEq

/-- The block a successful audio_block_alloc yields: zeroed buffer, full
data_len, refcount 1. -/
def freshAudioBlock : AudioBlock :=
  { data := List.replicate CONFIG_AUDIO_BLOCK_SAMPLES 0,
    data_len := CONFIG_AUDIO_BLOCK_SAMPLES,
    ref_count := 1 }

/-- audio_block_alloc as seen from the mixer: success is dictated by the
environment oracle at the current call index. -/
def mixer_alloc (env : MixerEnv) (s : MixerSt) : Option AudioBlock × MixerSt :=
  if env.allocOk s.allocCalls then
    (some freshAudioBlock, { s with allocCalls := s.allocCalls + 1 })
  else
    (none, { s with allocCalls := s.allocCalls + 1 })

/-- The per-channel working block the mixer builds from an allocated block
cb: the input's first data_len samples are copied over cb's zeroed buffer
and the input's data_len is taken over. -/
def mixer_ch_input (input cb : AudioBlock) : AudioBlock :=
  { cb with data := copyFirst cb.data input.data input.data_len,
            data_len := input.data_len }

/-- One iteration of the mixer channel loop (src/channel_strip.c): allocate
a per-channel block (skipping the channel when that fails), copy the input
samples and data_len into it, run the strip, and saturating-sum a returned
result into the mix buffer before releasing it. -/
def audio_mixer_channel_step (env : MixerEnv) (input : AudioBlock)
    (ch : List SeqNodeF) (acc : AudioBlock × MixerSt) :
    AudioBlock × MixerSt :=
  match mixer_alloc env acc.2 with
  | (none, s1) => (acc.1, s1)
  | (some cb, s1) =>
    match channel_strip_process_block ch (some (mixer_ch_input input cb)) with
    | none => (acc.1, s1)
    | some rb =>
      ({ acc.1 with
         data := satSumFirst acc.1.data rb.data
           (min rb.data_len acc.1.data_len) },
       { s1 with released := s1.released ++ [rb] })

/-- audio_mixer_process_block (src/channel_strip.c): null input or an empty
channel list returns the input unchanged; otherwise a mix block is
allocated and zeroed (releasing the input and returning null when that
fails), every channel is processed and summed, the input is released, and
the mix block is fed through the master strip when one is set. -/
def audio_mixer_process_block (env : MixerEnv)
    (channels : List (List SeqNodeF)) (master : Option (List SeqNodeF))
    (input : Option AudioBlock) (s : MixerSt) :
    Option AudioBlock × MixerSt :=
  match input with
  | none => (none, s)
  | some b =>
    if channels.length = 0 then (some b, s)
    else
      match mixer_alloc env s with
      | (none, s1) => (none, { s1 with released := s1.released ++ [b] })
      | (some mix0, s1) =>
        let mixb := { mix0 with data := zeroFirst mix0.data mix0.data_len }
        let res := channels.foldl
          (fun a ch => audio_mixer_channel_step env b ch a) (mixb, s1)
        let s2 := { res.2 with released := res.2.released ++ [b] }
        match master with
        | some m => (channel_strip_process_block m (some res.1), s2)
        | none => (some res.1, s2)

/-- The zeroed mix accumulator the mixer starts from. -/
def mix_zero_block : AudioBlock :=
  { freshAudioBlock with
    data := zeroFirst freshAudioBlock.data freshAudioBlock.data_len }

/-- Specification-level accumulator (section 4.5 of the spec): starting
from a zeroed accumulator, each channel whose allocation (call index k
onwards, one call per channel) succeeds contributes its strip output,
saturating-summed over the common valid range; channels with a failed
allocation contribute silence. -/
def mixer_accum_spec (env : MixerEnv) (b : AudioBlock) :
    List (List SeqNodeF) → Nat → AudioBlock → AudioBlock
  | [], _, mixb => mixb
  | ch :: rest, k, mixb =>
    mixer_accum_spec env b rest (k + 1)
      (if env.allocOk k then
         match channel_strip_process_block ch
             (some (mixer_ch_input b freshAudioBlock)) with
         | none => mixb
         | some rb =>
           { mixb with
             data := satSumFirst mixb.data rb.data
               (min rb.data_len mixb.data_len) }
       else mixb)

/-- Specification-level list of per-channel results the mixer releases, in
channel order: exactly the strip outputs of channels whose allocation
succeeded and whose strip returned a block. -/
def mixer_released_spec (env : MixerEnv) (b : AudioBlock) :
    List (List SeqNodeF) → Nat → List AudioBlock
  | [], _ => []
  | ch :: rest, k =>
    (if env.allocOk k then
       match channel_strip_process_block ch
           (some (mixer_ch_input b freshAudioBlock)) with
       | none => []
       | some rb => [rb]
     else []) ++ mixer_released_spec env b rest (k + 1)

/-- Master-bus postprocessing: the accumulator is fed through the master
strip when one is set and returned as-is otherwise. -/
def mixer_master_out (master : Option (List SeqNodeF)) (acc : AudioBlock) :
    Option AudioBlock :=
  match master with
  | some m => channel_strip_process_block m (some acc)
  | none => some acc

/-- Helper: the mixer channel fold equals the specification accumulator and
release list, while performing exactly one allocation call per channel. -/
theorem mixer_fold_spec (env : MixerEnv) (b : AudioBlock)
    (chs : List (List SeqNodeF)) :
    ∀ (mixb : AudioBlock) (k : Nat) (rel : List AudioBlock),
      chs.foldl (fun a ch => audio_mixer_channel_step env b ch a)
          (mixb, { allocCalls := k, released := rel }) =
        (mixer_accum_spec env b chs k mixb,
         { allocCalls := k + chs.length,
           released := rel ++ mixer_released_spec env b chs k }) := by
  induction chs with
  | nil =>
    intro mixb k rel
    simp [mixer_accum_spec, mixer_released_spec]
  | cons ch rest ih =>
    intro mixb k rel
    simp only [List.foldl_cons]
    rcases hok : env.allocOk k with _ | _
    · have hstep : audio_mixer_channel_step env b ch
          (mixb, { allocCalls := k, released := rel }) =
          (mixb, { allocCalls := k + 1, released := rel }) := by
        simp [audio_mixer_channel_step, mixer_alloc, hok]
      rw [hstep, ih]
      simp only [mixer_accum_spec, mixer_released_spec, hok]
      simp only [Prod.mk.injEq, Bool.false_eq_true, if_false, List.nil_append,
        MixerSt.mk.injEq, List.length_cons]
      refine ⟨trivial, by omega, trivial⟩
    · rcases hch : channel_strip_process_block ch
        (some (mixer_ch_input b freshAudioBlock)) with _ | rb
      · have hstep : audio_mixer_channel_step env b ch
            (mixb, { allocCalls := k, released := rel }) =
            (mixb, { allocCalls := k + 1, released := rel }) := by
          simp [audio_mixer_channel_step, mixer_alloc, hok, hch]
        rw [hstep, ih]
        simp only [mixer_accum_spec, mixer_released_spec, hok, hch]
        simp only [Prod.mk.injEq, if_true, MixerSt.mk.injEq, List.length_cons,
          List.nil_append]
        refine ⟨trivial, by omega, trivial⟩
      · have hstep : audio_mixer_channel_step env b ch
            (mixb, { allocCalls := k, released := rel }) =
            ({ mixb with
               data := satSumFirst mixb.data rb.data
                 (min rb.data_len mixb.data_len) },
             { allocCalls := k + 1, released := rel ++ [rb] }) := by
          simp [audio_mixer_channel_step, mixer_alloc, hok, hch]
        rw [hstep, ih]
        simp only [mixer_accum_spec, mixer_released_spec, hok, hch]
        simp only [Prod.mk.injEq, if_true, MixerSt.mk.injEq, List.length_cons]
        refine ⟨trivial, by omega, by simp⟩

/-- Claim C7: with at least one channel and a non-null input, the mixer
returns null and releases only the input when the accumulator allocation
fails; otherwise it makes exactly one allocation per channel, sums each
successful channel's strip output into the accumulator with 16-bit
saturation (a channel whose allocation fails contributes silence),
releases every per-channel result and then the input, and returns the
accumulator fed through the master strip when one is set, or the
accumulator itself otherwise. -/
theorem audio_mixer_process_block_correct (env : MixerEnv)
    (channels : List (List SeqNodeF)) (master : Option (List SeqNodeF))
    (b : AudioBlock) (s : MixerSt) (hch : channels ≠ []) :
    (env.allocOk s.allocCalls = false →
       audio_mixer_process_block env channels master (some b) s =
         (none, { allocCalls := s.allocCalls + 1,
                  released := s.released ++ [b] })) ∧
    (env.allocOk s.allocCalls = true →
       audio_mixer_process_block env channels master (some b) s =
         (mixer_master_out master
            (mixer_accum_spec env b channels (s.allocCalls + 1)
              mix_zero_block),
          { allocCalls := s.allocCalls + 1 + channels.length,
            released := s.released ++
              mixer_released_spec env b channels (s.allocCalls + 1) ++
                [b] })) := by
  obtain ⟨k0, rel0⟩ := s
  have hlen : ¬ (channels.length = 0) := by
    simpa [List.length_eq_zero] using hch
  constructor
  · intro hok
    simp [audio_mixer_process_block, mixer_alloc, hok, hlen]
  · intro hok
    simp only [audio_mixer_process_block, hlen, if_false, mixer_alloc, hok,
      if_true]
    have hz : ({ freshAudioBlock with
        data := zeroFirst freshAudioBlock.data freshAudioBlock.data_len } :
          AudioBlock) = mix_zero_block := rfl
    rw [hz, mixer_fold_spec env b channels mix_zero_block (k0 + 1) rel0]
    cases master with
    | none => simp [mixer_master_out]
    | some m => simp [mixer_master_out]

set_option maxRecDepth 4000 in
/-- Witness for claim C7: a one-channel mixer (empty strip) over a
one-sample input block: the channel copy is summed into the accumulator,
the channel result and then the input are released, and two allocation
calls (accumulator plus one channel) are made. -/
theorem audio_mixer_process_block_witness :
    audio_mixer_process_block { allocOk := fun _ => true } [[]] none
        (some { data := [100], data_len := 1, ref_count := 1 })
        { allocCalls := 0, released := [] } =
      (some { data := 100 :: List.replicate 127 0, data_len := 128,
              ref_count := 1 },
       { allocCalls := 2,
         released := [{ data := 100 :: List.replicate 127 0, data_len := 1,
                        ref_count := 1 },
                      { data := [100], data_len := 1, ref_count := 1 }] }) := by
  have h := (audio_mixer_process_block_correct { allocOk := fun _ => true }
      [[]] none { data := [100], data_len := 1, ref_count := 1 }
      { allocCalls := 0, released := [] } (by simp)).2 rfl
  rw [h]
  decide

/-- Claim C10: a mixer with zero attached channels returns a non-null input
block unchanged: no accumulator allocation happens, no channel runs, the
master strip (whatever it is) is not invoked, nothing is released, and the
mixer state is untouched. -/
theorem audio_mixer_process_block_no_channels (env : MixerEnv)
    (master : Option (List SeqNodeF)) (b : AudioBlock) (s : MixerSt) :
    audio_mixer_process_block env [] master (some b) s = (some b, s) := rfl

/-- Window function types of audio_fw_v2.h. -/
inductive SpectrumWindowType where
  | rectangular
  | hann
  | hamming
  | blackman
  | flatTop
deriving Repr, DecidableEq

/-- struct spectrum_analyzer_config (audio_fw_v2.h); the magnitude floor is
a float in the source, carried here exactly as a rational. -/
structure SpectrumAnalyzerConfig where
  fft_size : Nat
  hop_size : Nat
  window : SpectrumWindowType
  compute_phase : Bool
  magnitude_floor_db : Rat
deriving Repr, DecidableEq

/-- SPECTRUM_ANALYZER_DEFAULT_CONFIG (audio_fw_v2.h): 256-point FFT, no
overlap, Hann window, no phase, -120 dB floor. -/
def SPECTRUM_ANALYZER_DEFAULT_CONFIG : SpectrumAnalyzerConfig :=
  { fft_size := 256, hop_size := 0, window := SpectrumWindowType.hann,
    compute_phase := false, magnitude_floor_db := -120 }

/-- MAX_FFT_SIZE of node_spectrum_analyzer_v2.c. -/
def MAX_FFT_SIZE : Nat := 2048

/-- FFT sizes accepted by the CMSIS arm_rfft_fast_init_f32 switch in
node_spectrum_analyzer_init_ex (compiled only on ARM platforms). -/
def arm_rfft_supported (n : Nat) : Bool :=
  n = 32 || n = 64 || n = 128 || n = 256 || n = 512 || n = 1024 ||
    n = 2048 || n = 4096

/-- node_spectrum_analyzer_init_ex (node_spectrum_analyzer_v2.c), with the
platform conditional (PLATFORM_ARM) made explicit.  The observable state is
the static spectrum_ctx_index instance counter; the result is the return
code paired with the counter after the call.  Note the counter is
incremented before fft_size validation. -/
def node_spectrum_analyzer_init_ex (platform_arm : Bool)
    (spectrum_ctx_index : Nat) (config : Option SpectrumAnalyzerConfig) :
    Int × Nat :=
  if 4 ≤ spectrum_ctx_index then (-ENOMEM, spectrum_ctx_index)
  else
    let idx1 := spectrum_ctx_index + 1
    let cfg := config.getD SPECTRUM_ANALYZER_DEFAULT_CONFIG
    if MAX_FFT_SIZE < cfg.fft_size then (-EINVAL, idx1)
    else if cfg.fft_size &&& (cfg.fft_size - 1) ≠ 0 then (-EINVAL, idx1)
    else if platform_arm && ! arm_rfft_supported cfg.fft_size then
      (-EINVAL, idx1)
    else (0, idx1)

/-- The fft_size validation of node_spectrum_analyzer_init_ex in isolation:
at most MAX_FFT_SIZE, passing the power-of-two bit test, and on ARM also in
the CMSIS-supported set. -/
def spectrum_fft_size_ok (platform_arm : Bool) (n : Nat) : Bool :=
  if MAX_FFT_SIZE < n then false
  else if n &&& (n - 1) ≠ 0 then false
  else if platform_arm && ! arm_rfft_supported n then false
  else true

/-- Counterexample to claim C5: with a fresh instance counter, initializing
with fft_size 1000 fails with -EINVAL yet consumes an instance slot (the
counter moves from 0 to 1) on either platform, and on the non-ARM fallback
build fft_size 16, outside {32,...,2048}, is accepted. -/
theorem node_spectrum_analyzer_init_ex_cex :
    node_spectrum_analyzer_init_ex false 0
        (some { fft_size := 1000, hop_size := 0,
                window := SpectrumWindowType.hann, compute_phase := false,
                magnitude_floor_db := -120 }) = (-EINVAL, 1) ∧
    node_spectrum_analyzer_init_ex true 0
        (some { fft_size := 1000, hop_size := 0,
                window := SpectrumWindowType.hann, compute_phase := false,
                magnitude_floor_db := -120 }) = (-EINVAL, 1) ∧
    (node_spectrum_analyzer_init_ex false 0
        (some { fft_size := 16, hop_size := 0,
                window := SpectrumWindowType.hann, compute_phase := false,
                magnitude_floor_db := -120 })).1 = 0 := by
  decide

/-- Claim C5 as amended: a full instance budget fails with -ENOMEM leaving
the counter unchanged, while every other call consumes one instance slot
whether validation succeeds or fails (the static counter is incremented
before fft_size validation); validation on ARM builds accepts exactly the
sizes {32, 64, 128, 256, 512, 1024, 2048} (the CMSIS switch intersected
with the 2048 bound), while the non-ARM fallback accepts exactly the sizes
at most 2048 that pass the power-of-two bit test, which includes the small
powers of two 0, 1, 2, 4, 8 and 16 outside the documented set; sizes above
2048 always fail. -/
theorem node_spectrum_analyzer_init_ex_correct (platform_arm : Bool)
    (idx : Nat) (config : Option SpectrumAnalyzerConfig) :
    node_spectrum_analyzer_init_ex platform_arm idx config =
      (if 4 ≤ idx then (-ENOMEM, idx)
       else if spectrum_fft_size_ok platform_arm
           (config.getD SPECTRUM_ANALYZER_DEFAULT_CONFIG).fft_size then
         (0, idx + 1)
       else (-EINVAL, idx + 1)) ∧
    (∀ n : Nat, spectrum_fft_size_ok true n = true ↔
      n ∈ ([32, 64, 128, 256, 512, 1024, 2048] : List Nat)) ∧
    (∀ n : Nat, spectrum_fft_size_ok false n = true ↔
      (n ≤ MAX_FFT_SIZE ∧ n &&& (n - 1) = 0)) ∧
    (∀ n ∈ ([0, 1, 2, 4, 8, 16] : List Nat),
      spectrum_fft_size_ok false n = true) ∧
    (∀ n : Nat, MAX_FFT_SIZE < n →
      spectrum_fft_size_ok platform_arm n = false) := by
  refine ⟨?_, ?_, ?_, by decide, ?_⟩
  · by_cases h4 : 4 ≤ idx
    · simp [node_spectrum_analyzer_init_ex, h4]
    · simp only [node_spectrum_analyzer_init_ex, h4, if_false,
        spectrum_fft_size_ok]
      set n := (config.getD SPECTRUM_ANALYZER_DEFAULT_CONFIG).fft_size with hn
      by_cases hbig : MAX_FFT_SIZE < n
      · simp [hbig]
      · simp only [hbig, if_false]
        by_cases hpow : n &&& (n - 1) ≠ 0
        · simp [hpow]
        · simp only [hpow, if_false]
          by_cases harm : platform_arm && ! arm_rfft_supported n
          · simp [harm]
          · simp [harm]
  · intro n
    constructor
    · intro h
      simp only [spectrum_fft_size_ok] at h
      split_ifs at h with h1 h2 h3
      have hsup : arm_rfft_supported n = true := by
        rcases hs : arm_rfft_supported n with _ | _
        · simp [hs] at h3
        · rfl
      have hle : ¬ (MAX_FFT_SIZE < n) := h1
      simp only [arm_rfft_supported, Bool.or_eq_true, decide_eq_true_eq]
        at hsup
      simp only [MAX_FFT_SIZE] at hle
      have hne : n ≠ 4096 := by omega
      simp only [List.mem_cons, List.not_mem_nil, or_false]
      tauto
    · intro h
      fin_cases h <;> decide
  · intro n
    constructor
    · intro h
      simp only [spectrum_fft_size_ok, Bool.false_and] at h
      split_ifs at h with h1 h2 <;>
        first
          | exact ⟨by omega, by simpa using h2⟩
          | simp at h
    · intro hc
      have h1 : ¬ (MAX_FFT_SIZE < n) := by omega
      simp [spectrum_fft_size_ok, h1, hc.2]
  · intro n hn
    simp [spectrum_fft_size_ok, hn]

/-- Witness for claim C5: default-config initialization from a fresh
counter succeeds and moves the counter to 1; 256 is an accepted ARM size,
16 is accepted by the fallback validation, and 4096 is rejected. -/
theorem node_spectrum_analyzer_init_ex_correct_witness :
    node_spectrum_analyzer_init_ex true 0 none = (0, 1) ∧
    spectrum_fft_size_ok true 256 = true ∧
    spectrum_fft_size_ok false 16 = true ∧
    spectrum_fft_size_ok true 4096 = false := by
  refine ⟨?_, ?_, ?_, ?_⟩
  · rw [(node_spectrum_analyzer_init_ex_correct true 0 none).1]
    decide
  · exact ((node_spectrum_analyzer_init_ex_correct true 0 none).2.1 256).mpr
      (by decide)
  · exact (node_spectrum_analyzer_init_ex_correct true 0 none).2.2.2.1 16
      (by decide)
  · exact (node_spectrum_analyzer_init_ex_correct true 0 none).2.2.2.2 4096
      (by decide)

/-- The accumulation state of struct spectrum_analyzer_ctx relevant to the
streaming step: the live fft_size-long region of sample_buffer, the write
position, and the result bookkeeping fields. -/
structure SpectrumAnalyzerState where
  sample_buffer : List Int
  buffer_pos : Nat
  samples_accumulated : Nat
  spectrum_ready : Bool
  process_count : Nat
deriving Repr, DecidableEq

/-- Overwrite of a buffer region starting at position p (the memcpy into
sample_buffer). -/
def list_write_at (buf : List Int) (p : Nat) (xs : List Int) : List Int :=
  buf.take p ++ xs ++ buf.drop (p + xs.length)

/-- spectrum_analyzer_process (node_spectrum_analyzer_v2.c), state part:
copy min(in.data_len, fft_size - pos) input samples at pos; when the
buffer fills, mark the spectrum ready, bump the process counter, and
either slide the buffer left by hop_size with pos = fft_size - hop_size
(overlap, hop_size < fft_size) or reset pos to 0, where a configured
hop_size of 0 stands for fft_size.  The FFT itself only reads the buffer
and writes the result fields, so it is not part of the accumulation
state. -/
def spectrum_analyzer_process (fft_size hop_cfg : Nat) (input : AudioBlock)
    (s : SpectrumAnalyzerState) : SpectrumAnalyzerState :=
  let hop_size := if hop_cfg = 0 then fft_size else hop_cfg
  let samples_to_copy := min input.data_len (fft_size - s.buffer_pos)
  let buf := list_write_at s.sample_buffer s.buffer_pos
      (input.data.take samples_to_copy)
  let pos := s.buffer_pos + samples_to_copy
  let acc := s.samples_accumulated + samples_to_copy
  if fft_size ≤ pos then
    if hop_size < fft_size then
      { sample_buffer := (buf.drop hop_size).take (fft_size - hop_size) ++
          buf.drop (fft_size - hop_size),
        buffer_pos := fft_size - hop_size,
        samples_accumulated := acc,
        spectrum_ready := true,
        process_count := s.process_count + 1 }
    else
      { sample_buffer := buf, buffer_pos := 0, samples_accumulated := acc,
        spectrum_ready := true, process_count := s.process_count + 1 }
  else
    { sample_buffer := buf, buffer_pos := pos, samples_accumulated := acc,
      spectrum_ready := s.spectrum_ready, process_count := s.process_count }

/-- Feed a sequence of input blocks through the analyzer step. -/
def spectrum_analyzer_run (fft_size hop_cfg : Nat) :
    List AudioBlock → SpectrumAnalyzerState → SpectrumAnalyzerState
  | [], s => s
  | b :: rest, s =>
    spectrum_analyzer_run fft_size hop_cfg rest
      (spectrum_analyzer_process fft_size hop_cfg b s)

/-- Helper: one analyzer step keeps the write position strictly below
fft_size and the live buffer length exactly fft_size. -/
theorem spectrum_analyzer_process_inv (fft_size hop_cfg : Nat)
    (input : AudioBlock) (s : SpectrumAnalyzerState) (hfft : 0 < fft_size)
    (hpos : s.buffer_pos < fft_size)
    (hlen : s.sample_buffer.length = fft_size) :
    (spectrum_analyzer_process fft_size hop_cfg input s).buffer_pos <
      fft_size ∧
    (spectrum_analyzer_process fft_size hop_cfg input
      s).sample_buffer.length = fft_size := by
  simp only [spectrum_analyzer_process]
  have hcopy : (input.data.take
      (min input.data_len (fft_size - s.buffer_pos))).length ≤
      fft_size - s.buffer_pos := by
    simp only [List.length_take]
    omega
  have hbuflen : (list_write_at s.sample_buffer s.buffer_pos
      (input.data.take (min input.data_len
        (fft_size - s.buffer_pos)))).length = fft_size := by
    simp only [list_write_at, List.length_append, List.length_take,
      List.length_drop, hlen]
    omega
  by_cases hfull :
      fft_size ≤ s.buffer_pos + min input.data_len (fft_size - s.buffer_pos)
  · simp only [hfull, if_true]
    by_cases hhop :
        (if hop_cfg = 0 then fft_size else hop_cfg) < fft_size
    · have hhopnz : (if hop_cfg = 0 then fft_size else hop_cfg) ≠ 0 ∧
          (if hop_cfg = 0 then fft_size else hop_cfg) ≤ fft_size := by
        by_cases h0 : hop_cfg = 0 <;> simp [h0] at hhop ⊢ <;> omega
      simp only [hhop, if_true]
      refine ⟨by omega, ?_⟩
      simp only [List.length_append, List.length_take, List.length_drop,
        hbuflen]
      omega
    · simp only [hhop, if_false]
      exact ⟨hfft, hbuflen⟩
  · simp only [hfull, if_false]
    constructor
    · omega
    · exact hbuflen

/-- Helper: the step invariant extends to any input sequence. -/
theorem spectrum_analyzer_run_inv (fft_size hop_cfg : Nat)
    (blocks : List AudioBlock) :
    ∀ (s : SpectrumAnalyzerState), 0 < fft_size →
      s.buffer_pos < fft_size → s.sample_buffer.length = fft_size →
      (spectrum_analyzer_run fft_size hop_cfg blocks s).buffer_pos <
        fft_size ∧
      (spectrum_analyzer_run fft_size hop_cfg blocks
        s).sample_buffer.length = fft_size := by
  induction blocks with
  | nil => intro s hfft hpos hlen; exact ⟨hpos, hlen⟩
  | cons b rest ih =>
    intro s hfft hpos hlen
    have h := spectrum_analyzer_process_inv fft_size hop_cfg b s hfft hpos
      hlen
    exact ih _ hfft h.1 h.2

/-- Claim C6: starting from a well-formed analyzer state, the write
position stays strictly below fft_size after every step of any input
sequence and the live buffer length stays exactly fft_size (internal
storage never grows); on a step that fills the buffer, with a configured
hop of 0 standing for fft_size, a hop smaller than fft_size slides the
buffer left by hop_size samples (the tail keeping its stale values) and
puts the position at fft_size - hop_size, while a hop of at least fft_size
resets the position to 0. -/
theorem spectrum_analyzer_bounded_state (fft_size hop_cfg : Nat)
    (input : AudioBlock) (s : SpectrumAnalyzerState)
    (blocks : List AudioBlock) (hfft : 0 < fft_size)
    (hpos : s.buffer_pos < fft_size)
    (hlen : s.sample_buffer.length = fft_size) :
    ((spectrum_analyzer_process fft_size hop_cfg input s).buffer_pos <
        fft_size ∧
      (spectrum_analyzer_process fft_size hop_cfg input
        s).sample_buffer.length = fft_size) ∧
    ((spectrum_analyzer_run fft_size hop_cfg blocks s).buffer_pos <
        fft_size ∧
      (spectrum_analyzer_run fft_size hop_cfg blocks
        s).sample_buffer.length = fft_size) ∧
    (fft_size ≤ s.buffer_pos + min input.data_len
        (fft_size - s.buffer_pos) →
      (((if hop_cfg = 0 then fft_size else hop_cfg) < fft_size →
        (spectrum_analyzer_process fft_size hop_cfg input s).buffer_pos =
          fft_size - (if hop_cfg = 0 then fft_size else hop_cfg) ∧
        (spectrum_analyzer_process fft_size hop_cfg input s).sample_buffer =
          (list_write_at s.sample_buffer s.buffer_pos
            (input.data.take (min input.data_len
              (fft_size - s.buffer_pos)))).drop
                (if hop_cfg = 0 then fft_size else hop_cfg) ++
          (list_write_at s.sample_buffer s.buffer_pos
            (input.data.take (min input.data_len
              (fft_size - s.buffer_pos)))).drop
                (fft_size - (if hop_cfg = 0 then fft_size else hop_cfg))) ∧
      (fft_size ≤ (if hop_cfg = 0 then fft_size else hop_cfg) →
        (spectrum_analyzer_process fft_size hop_cfg input s).buffer_pos =
          0))) := by
  have hbuflen : (list_write_at s.sample_buffer s.buffer_pos
      (input.data.take (min input.data_len
        (fft_size - s.buffer_pos)))).length = fft_size := by
    simp only [list_write_at, List.length_append, List.length_take,
      List.length_drop, hlen]
    omega
  refine ⟨spectrum_analyzer_process_inv fft_size hop_cfg input s hfft hpos
      hlen,
    spectrum_analyzer_run_inv fft_size hop_cfg blocks s hfft hpos hlen,
    ?_⟩
  intro hfull
  constructor
  · intro hhop
    simp only [spectrum_analyzer_process, hfull, if_true, hhop, if_true]
    refine ⟨trivial, ?_⟩
    have hdroplen : ((list_write_at s.sample_buffer s.buffer_pos
        (input.data.take (min input.data_len
          (fft_size - s.buffer_pos)))).drop
            (if hop_cfg = 0 then fft_size else hop_cfg)).length =
        fft_size - (if hop_cfg = 0 then fft_size else hop_cfg) := by
      simp only [List.length_drop, hbuflen]
    rw [List.take_of_length_le (le_of_eq hdroplen)]
  · intro hge
    have hhop' : ¬ ((if hop_cfg = 0 then fft_size else hop_cfg) <
        fft_size) := by omega
    simp only [spectrum_analyzer_process, hfull, if_true, hhop', if_false]

/-- Witness for claim C6: a 4-point analyzer with hop 2, position 2,
receiving a 3-sample block: two samples fill the buffer, the buffer slides
left by 2 and the position lands at 2 = 4 - 2. -/
theorem spectrum_analyzer_bounded_state_witness :
    (spectrum_analyzer_process 4 2
        { data := [5, 6, 7], data_len := 3, ref_count := 1 }
        { sample_buffer := [1, 2, 0, 0], buffer_pos := 2,
          samples_accumulated := 2, spectrum_ready := false,
          process_count := 0 }).buffer_pos = 4 - (if 2 = 0 then 4 else 2) ∧
    (spectrum_analyzer_process 4 2
        { data := [5, 6, 7], data_len := 3, ref_count := 1 }
        { sample_buffer := [1, 2, 0, 0], buffer_pos := 2,
          samples_accumulated := 2, spectrum_ready := false,
          process_count := 0 }).sample_buffer =
      (list_write_at [1, 2, 0, 0] 2
        ([5, 6, 7].take (min 3 (4 - 2)))).drop (if 2 = 0 then 4 else 2) ++
      (list_write_at [1, 2, 0, 0] 2
        ([5, 6, 7].take (min 3 (4 - 2)))).drop
          (4 - (if 2 = 0 then 4 else 2)) :=
  ((spectrum_analyzer_bounded_state 4 2
      { data := [5, 6, 7], data_len := 3, ref_count := 1 }
      { sample_buffer := [1, 2, 0, 0], buffer_pos := 2,
        samples_accumulated := 2, spectrum_ready := false,
        process_count := 0 } [] (by decide) (by decide) (by decide)).2.2
    (by decide)).1 (by decide)

/-- INT16_MAX. -/
def INT16_MAX : Int := 32767

/-- C float-to-int16 cast semantics over the reals: truncation toward
zero. -/
noncomputable def c_int16_of_float (x : ℝ) : Int :=
  if 0 ≤ x then ⌊x⌋ else ⌈x⌉

/-- Default amplitude installed by node_sine_init of the thread-model sine
generator (src/nodes/node_sine.c): ctx->amplitude = 10000.0f. -/
noncomputable def sine_v1_amplitude : ℝ := 10000

/-- Amplitude factor of the sequential (v2) sine generator's sample
formula: INT16_MAX * 0.5f. -/
noncomputable def sine_v2_amplitude : ℝ := 32767 * (1 / 2)

/-- One sample of the thread-model sine generator, sinf idealized over the
reals: (int16_t)(sinf(phase) * amplitude). -/
noncomputable def sine_v1_sample (phase : ℝ) : Int :=
  c_int16_of_float (Real.sin phase * sine_v1_amplitude)

/-- One sample of the sequential (v2) sine generator:
(int16_t)(sinf(phase) * INT16_MAX * 0.5f). -/
noncomputable def sine_v2_sample (phase : ℝ) : Int :=
  c_int16_of_float (Real.sin phase * sine_v2_amplitude)

/-- Phase advance of the v2 generator: add the increment and wrap once at
2 pi. -/
noncomputable def sine_v2_step (inc phase : ℝ) : ℝ :=
  if 2 * Real.pi ≤ phase + inc then phase + inc - 2 * Real.pi
  else phase + inc

/-- The samples of one v2 generator block of n samples from a starting
phase and per-sample increment. -/
noncomputable def sine_v2_block : Nat → ℝ → ℝ → List Int
  | 0, _, _ => []
  | n + 1, phase, inc =>
    sine_v2_sample phase :: sine_v2_block n (sine_v2_step inc phase) inc

/-- Helper: the truncating cast of a real with magnitude below A + 1 has
magnitude at most A. -/
theorem c_int16_of_float_abs_le (x : ℝ) (A : Int) (hA : 0 ≤ A)
    (h : |x| < (A : ℝ) + 1) : |c_int16_of_float x| ≤ A := by
  rcases le_or_lt 0 x with hx | hx
  · rw [c_int16_of_float, if_pos hx,
      abs_of_nonneg (Int.floor_nonneg.mpr hx)]
    have hxA : x < (A : ℝ) + 1 := lt_of_le_of_lt (le_abs_self x) h
    have hfl : ⌊x⌋ < A + 1 := by
      rw [Int.floor_lt]
      push_cast
      linarith
    omega
  · rw [c_int16_of_float, if_neg (not_le.mpr hx)]
    have hceil : ⌈x⌉ ≤ 0 := Int.ceil_le.mpr (by push_cast; linarith)
    rw [abs_of_nonpos hceil]
    have hlow : (-(A : ℝ) - 1) < x := by
      have := (abs_lt.mp h).1
      linarith
    have hcl : (-A - 1 : Int) < ⌈x⌉ := by
      rw [Int.lt_ceil]
      push_cast
      linarith
    omega

/-- Helper: a sine scaled by a nonnegative amplitude stays within that
amplitude. -/
theorem sin_mul_amp_abs_le (phase amp : ℝ) (hamp : 0 ≤ amp) :
    |Real.sin phase * amp| ≤ amp := by
  rw [abs_mul, abs_of_nonneg hamp]
  have h1 : |Real.sin phase| ≤ 1 :=
    abs_le.mpr ⟨Real.neg_one_le_sin phase, Real.sin_le_one phase⟩
  exact mul_le_of_le_one_left hamp h1

/-- Helper: every v2 sample has magnitude at most 16383. -/
theorem sine_v2_sample_abs_le (phase : ℝ) : |sine_v2_sample phase| ≤ 16383 := by
  apply c_int16_of_float_abs_le _ _ (by norm_num)
  have h := sin_mul_amp_abs_le phase sine_v2_amplitude
    (by norm_num [sine_v2_amplitude])
  have hlt : sine_v2_amplitude < ((16383 : Int) : ℝ) + 1 := by
    norm_num [sine_v2_amplitude]
  exact lt_of_le_of_lt h hlt

/-- Helper: every sample of every v2 block has magnitude at most 16383. -/
theorem sine_v2_block_abs_le (n : Nat) :
    ∀ (phase inc : ℝ), ∀ x ∈ sine_v2_block n phase inc, |x| ≤ 16383 := by
  induction n with
  | zero =>
    intro phase inc x hx
    simp [sine_v2_block] at hx
  | succ n ih =>
    intro phase inc x hx
    simp only [sine_v2_block, List.mem_cons] at hx
    rcases hx with rfl | hx
    · exact sine_v2_sample_abs_le phase
    · exact ih _ _ x hx

/-- Counterexample to claim C9: the thread-model sine generator
(node_sine_init in src/nodes/node_sine.c) defaults to amplitude 10000, not
50% of full scale; at the sine crest the sample is exactly 10000, well
below INT16_MAX * 0.5 = 16383.5. -/
theorem sine_default_amplitude_cex :
    sine_v1_sample (Real.pi / 2) = 10000 ∧
    sine_v1_amplitude ≠ (32767 : ℝ) * (1 / 2) ∧
    (10000 : Int) < 16383 := by
  refine ⟨?_, by norm_num [sine_v1_amplitude], by norm_num⟩
  rw [sine_v1_sample, c_int16_of_float, Real.sin_pi_div_two, one_mul,
    if_pos (by norm_num [sine_v1_amplitude])]
  rw [show sine_v1_amplitude = ((10000 : Int) : ℝ) by
    norm_num [sine_v1_amplitude]]
  exact Int.floor_intCast 10000

/-- Claim C9 as amended: the sequential (v2) sine generator's samples are
sin(phase) * INT16_MAX * 0.5 truncated, so every sample of every block it
produces has magnitude at most 16383 = floor(INT16_MAX * 0.5), and that
peak is attained at the crest; the thread-model (v1) generator's default
amplitude is 10000 (about 30.5% of full scale), bounding its samples by
10000 instead. -/
theorem sine_amplitude_correct (phase phase0 inc : ℝ) (n : Nat) :
    sine_v2_amplitude = (32767 : ℝ) * (1 / 2) ∧
    |sine_v2_sample phase| ≤ 16383 ∧
    sine_v2_sample (Real.pi / 2) = 16383 ∧
    (∀ x ∈ sine_v2_block n phase0 inc, |x| ≤ 16383) ∧
    sine_v1_amplitude = 10000 ∧
    |sine_v1_sample phase| ≤ 10000 := by
  refine ⟨rfl, sine_v2_sample_abs_le phase, ?_,
    sine_v2_block_abs_le n phase0 inc, rfl, ?_⟩
  · rw [sine_v2_sample, c_int16_of_float, Real.sin_pi_div_two, one_mul,
      if_pos (by norm_num [sine_v2_amplitude])]
    rw [Int.floor_eq_iff]
    norm_num [sine_v2_amplitude]
  · apply c_int16_of_float_abs_le _ _ (by norm_num)
    have h := sin_mul_amp_abs_le phase sine_v1_amplitude
      (by norm_num [sine_v1_amplitude])
    have hlt : sine_v1_amplitude < ((10000 : Int) : ℝ) + 1 := by
      norm_num [sine_v1_amplitude]
    exact lt_of_le_of_lt h hlt

/-- Witness for claim C9 as amended: the v2 sample at the crest is exactly
16383 and the v1 sample there is within the 10000 bound. -/
theorem sine_amplitude_correct_witness :
    sine_v2_sample (Real.pi / 2) = 16383 ∧
    |sine_v1_sample (Real.pi / 2)| ≤ 10000 :=
  ⟨(sine_amplitude_correct 0 0 0 0).2.2.1,
   (sine_amplitude_correct (Real.pi / 2) 0 0 0).2.2.2.2.2⟩
